import Mathlib

/-!
Verification development for the Telegram-driven portfolio CMS
(`server.js` v1.9 in `src/unnamed/part_003`, with the v1.7 variant in
`src/server.js`).  The conversation engine, the stores and the HTTP
gates are shallowly embedded as pure Lean functions; each inbound event
handler is embedded as a function producing an effect trace, and the
store state is obtained by replaying that trace.
-/

set_option maxRecDepth 4096

/-! ## String helpers (ASCII models of the JS string operations used) -/

/-- Substring test on character lists, modelling JS `String.includes`. -/
def listContainsSub (pat : List Char) : List Char → Bool
  | [] => pat.isEmpty
  | c :: rest => pat.isPrefixOf (c :: rest) || listContainsSub pat rest

/-- `containsSub s pat` models `s.includes(pat)`. -/
def containsSub (s pat : String) : Bool :=
  listContainsSub pat.data s.data

/-- Models `s.startsWith(pre)`. -/
def strStartsWith (s pre : String) : Bool :=
  pre.data.isPrefixOf s.data

/-- ASCII model of JS `toLowerCase`. -/
def lowerStr (s : String) : String :=
  ⟨s.data.map Char.toLower⟩

/-- Whitespace characters recognised by the model (ASCII subset of JS `\s`). -/
def isWsChar (c : Char) : Bool :=
  c = ' ' || c = '\t' || c = '\n' || c = '\r'

/-- Models `s.trim()`. -/
def trimStr (s : String) : String :=
  ⟨((s.data.dropWhile isWsChar).reverse.dropWhile isWsChar).reverse⟩

/-- Models `s.split(sep)` for a one-character separator. -/
def splitChar (sep : Char) : List Char → List (List Char)
  | [] => [[]]
  | c :: rest =>
    if c = sep then [] :: splitChar sep rest
    else
      match splitChar sep rest with
      | [] => [[c]]
      | h :: t => (c :: h) :: t

/-- Split a string on a single character, JS `split` semantics. -/
def splitStr (sep : Char) (s : String) : List String :=
  (splitChar sep s.data).map String.mk

/-- Models `arr.join(sep)`. -/
def joinWith (sep : String) : List String → String
  | [] => ""
  | [x] => x
  | x :: y :: rest => x ++ sep ++ joinWith sep (y :: rest)

/-- Models `charAt(0).toUpperCase() + slice(1)` (a no-op on `""`). -/
def capStr (s : String) : String :=
  match s.data with
  | [] => ""
  | c :: cs => ⟨c.toUpper :: cs⟩

/-- Models `replace(/[^a-zA-Z0-9\s]/g, '')` (v1.9 project-name cleanup). -/
def stripKeepSpace (s : String) : String :=
  ⟨s.data.filter (fun c => c.isAlphanum || isWsChar c)⟩

/-- Models `replace(/[^a-zA-Z0-9]/g, '')` (v1.7 project-name cleanup). -/
def stripAlnum (s : String) : String :=
  ⟨s.data.filter Char.isAlphanum⟩

/-! ## Caption parsing (`parseMediaCaption`) -/

/-- The fixed category keyword set of the v1.9 first-word check. -/
def categoryWords : List String := ["anamorphic", "event", "stall", "general"]

/-- Embedding of `parseMediaCaption` from `src/unnamed/part_003` lines
737-762 (v1.9): category by substring search over the lowercased
caption, project name by the first-word rule, then capitalised and
stripped of characters other than alphanumerics and whitespace. -/
def parseMediaCaption (caption : String) : String × String :=
  let lower := lowerStr caption
  let category :=
    if containsSub lower "anamorphic" then "anamorphic"
    else if containsSub lower "event" then "event"
    else if containsSub lower "stall" then "stall"
    else "general"
  let words := splitStr ' ' caption
  let firstWordLower := lowerStr (words.headD "")
  let projectName :=
    if words.length > 1 && categoryWords.contains firstWordLower then
      joinWith " " (words.drop 1)
    else if words.length > 0 then joinWith " " words
    else ""
  (category, stripKeepSpace (capStr projectName))

/-- Embedding of `parseMediaCaption` from `src/server.js` lines 171-186
(v1.7): same substring category rule, but the project name keeps a
single word and is stripped of everything but alphanumerics. -/
def parseMediaCaptionV7 (caption : String) : String × String :=
  let lower := lowerStr caption
  let category :=
    if containsSub lower "anamorphic" then "anamorphic"
    else if containsSub lower "event" then "event"
    else if containsSub lower "stall" then "stall"
    else "general"
  let words := splitStr ' ' caption
  let projectName :=
    if words.length > 1 &&
        (["anamorphic", "event", "stall"].contains (lowerStr (words.headD ""))) then
      capStr (words.getD 1 "")
    else if words.length > 0 then capStr (words.headD "")
    else ""
  (category, stripAlnum projectName)

/-- The first-token rule exactly as the specification words it (refinement
comparison definition; it is deliberately written from the spec, not from
the source): the first whitespace-delimited token is compared against the
fixed category set; on a match that token is dropped and the remainder is
the project name, otherwise the category is "general" and the whole
caption is the project name. -/
def specFirstTokenRule (caption : String) : String × String :=
  match splitStr ' ' caption with
  | [] => ("general", caption)
  | w :: rest =>
    if categoryWords.contains (lowerStr w) then (lowerStr w, joinWith " " rest)
    else ("general", caption)

/-- Category rule actually implemented: keyword substring search with
priority anamorphic, then event, then stall, defaulting to general. -/
def substringCategory (caption : String) : String :=
  let lower := lowerStr caption
  if containsSub lower "anamorphic" then "anamorphic"
  else if containsSub lower "event" then "event"
  else if containsSub lower "stall" then "stall"
  else "general"

/-- Project-name rule actually implemented (before cleanup): drop the
first token only when the caption has at least two tokens and the first
token, lowercased, is a category keyword; otherwise keep the whole
caption. -/
def firstTokenRemainder (caption : String) : String :=
  match splitStr ' ' caption with
  | [] => ""
  | w :: rest =>
    if rest ≠ [] ∧ categoryWords.contains (lowerStr w) then joinWith " " rest
    else joinWith " " (w :: rest)

/-- The cleanup applied to the derived project name. -/
def cleanupName (s : String) : String :=
  stripKeepSpace (capStr s)

/-! ## Link resolver (`parseExternalLink`) -/

/-- The components of a parsed URL that `parseExternalLink` inspects
(`hostname`, `pathname` and the `v` query parameter).  URL string
parsing itself is the JS runtime's `new URL`; it enters the model as the
environment function `Env.urlParse` below. -/
structure UrlParts where
  hostname : String
  pathname : String
  queryV : Option String
deriving DecidableEq, Repr

/-- A typed external-link reference: provider tag, provider-specific id,
and the derived catalog key. -/
structure ParsedLink where
  type : String
  id : String
  unique_id : String
deriving DecidableEq, Repr

/-- Models `parts.find((part, index) => parts[index - 1] === 'd')`:
first element whose predecessor is `"d"`. -/
def findAfterD : List String → Option String
  | a :: b :: rest => if a = "d" then some b else findAfterD (b :: rest)
  | _ => none

/-- The per-actor and environment context an event handler runs in. -/
structure Env where
  /-- `ADMIN_CHAT_ID` (stringified, as `isAuthorized` compares). -/
  admin : String
  /-- The JS runtime's `new URL`; `none` models the constructor throwing. -/
  urlParse : String → Option UrlParts
  /-- Failure injection for the batch transaction: `batchFailAt i = true`
  makes the i-th row insert of the batch raise a store error. -/
  batchFailAt : Nat → Bool
  /-- Failure injection for the `user_state` load query. -/
  stateLoadErr : Bool

/-- Embedding of `parseExternalLink` (`src/unnamed/part_003` lines
764-780, identical in `src/server.js`): recognises YouTube and Google
Drive by hostname substring, extracts the provider id, and derives the
catalog key by prefixing the provider tag. -/
def parseExternalLink (env : Env) (link : String) : Option ParsedLink :=
  match env.urlParse link with
  | none => none
  | some u =>
    if containsSub u.hostname "youtube.com" || containsSub u.hostname "youtu.be" then
      let videoId :=
        if containsSub u.hostname "youtu.be" then u.pathname.drop 1
        else u.queryV.getD ""
      if videoId = "" then none
      else some ⟨"youtube", videoId, "youtube-" ++ videoId⟩
    else if containsSub u.hostname "drive.google.com" then
      match findAfterD (splitStr '/' u.pathname) with
      | none => none
      | some fileId =>
        if fileId = "" then none
        else some ⟨"gdrive", fileId, "gdrive-" ++ fileId⟩
    else none

/-! ## Data model: stores and per-actor conversation state -/

/-- A row of the `media` table (`timestamp` is not modelled; it never
drives a decision in the handlers). -/
structure MediaRow where
  file_unique_id : String
  file_id : String
  type : String
  category : String
  project_name : String
  caption : String
deriving DecidableEq, Repr

/-- The typed per-state `context` payload.  In the source the column is a
string holding either a raw id or `JSON.stringify` of the pending link
data; the constructors below are the shallow embedding of those
serialised shapes (serialise/parse round-trips are identities). -/
inductive Ctx where
  | link (pl : ParsedLink)
  | linkCat (pl : ParsedLink) (category : String)
  | batch (links : List ParsedLink)
  | batchCat (links : List ParsedLink) (category : String)
  | target (id : String)
deriving DecidableEq, Repr

/-- The raw string the edit handlers read out of the `context` column.
For the reachable edit states the context is `Ctx.target id` and this is
just `id`; the other cases give the serialised JSON (its exact spelling
is irrelevant to every claim) and a stored `NULL` reads as `"null"`,
as JS string-interpolation of `null` would produce. -/
def ctxRaw : Option Ctx → String
  | some (.target id) => id
  | some _ => "(json)"
  | none => "null"

/-- The persisted world the handlers act on: the `user_state` table, the
`site_config` table, the `media` table and the blocked-IP set. -/
structure World where
  userDb : List (String × String × Option Ctx)
  config : List (String × String)
  media : List MediaRow
  blocked : List String
deriving DecidableEq, Repr

/-- Assoc-list lookup for `site_config`. -/
def lookupKV : List (String × String) → String → Option String
  | [], _ => none
  | (k, v) :: rest, key => if k = key then some v else lookupKV rest key

/-- Upsert for `site_config` (`INSERT ... ON CONFLICT (key) DO UPDATE`). -/
def setKV : List (String × String) → String → String → List (String × String)
  | [], key, value => [(key, value)]
  | (k, v) :: rest, key, value =>
    if k = key then (key, value) :: rest else (k, v) :: setKV rest key value

/-- `SELECT state, context FROM user_state WHERE chat_id = $1`. -/
def lookupUS : List (String × String × Option Ctx) → String → Option (String × Option Ctx)
  | [], _ => none
  | (c, sc) :: rest, chatId => if c = chatId then some sc else lookupUS rest chatId

/-- Upsert into `user_state` (`ON CONFLICT (chat_id) DO UPDATE`). -/
def setUS : List (String × String × Option Ctx) → String → String → Option Ctx →
    List (String × String × Option Ctx)
  | [], chatId, st, ctx => [(chatId, st, ctx)]
  | (c, sc) :: rest, chatId, st, ctx =>
    if c = chatId then (chatId, st, ctx) :: rest
    else (c, sc) :: setUS rest chatId st ctx

/-- Embedding of `getUserState` (`src/unnamed/part_003` lines 638-649):
a missing row and a failed query both come back as idle with null
context. -/
def getUserState (env : Env) (udb : List (String × String × Option Ctx))
    (chatId : String) : String × Option Ctx :=
  if env.stateLoadErr then ("idle", none)
  else
    match lookupUS udb chatId with
    | some sc => sc
    | none => ("idle", none)

/-- `true` iff the catalog has a row with this `file_unique_id`
(models SQL `rowCount > 0` for keyed lookups). -/
def hasMedia (id : String) (media : List MediaRow) : Bool :=
  media.any (fun r => r.file_unique_id == id)

/-- Link-style media upsert: `ON CONFLICT (file_unique_id) DO UPDATE SET
file_id, type, category, project_name` — the stored caption survives a
conflict, a fresh insert takes the row's caption (`''`). -/
def upsertKeep (row : MediaRow) : List MediaRow → List MediaRow
  | [] => [row]
  | r :: rest =>
    if r.file_unique_id == row.file_unique_id then
      { row with caption := r.caption } :: rest
    else r :: upsertKeep row rest

/-- Photo/video media upsert: the conflict clause also rewrites the
caption. -/
def upsertAll (row : MediaRow) : List MediaRow → List MediaRow
  | [] => [row]
  | r :: rest =>
    if r.file_unique_id == row.file_unique_id then row :: rest
    else r :: upsertAll row rest

/-- `DELETE FROM media WHERE file_unique_id = $1`. -/
def deleteMedia (id : String) (media : List MediaRow) : List MediaRow :=
  media.filter (fun r => r.file_unique_id != id)

/-- `UPDATE media SET <field> = $1 WHERE file_unique_id = $2` for the two
fields the handlers touch. -/
def setField (field value : String) (r : MediaRow) : MediaRow :=
  if field = "project_name" then { r with project_name := value }
  else if field = "caption" then { r with caption := value }
  else r

/-- Apply a field update to the matching row (no-op when absent). -/
def updateField (field id value : String) (media : List MediaRow) : List MediaRow :=
  media.map (fun r => if r.file_unique_id == id then setField field value r else r)

/-- `INSERT INTO blocked_ips ... ON CONFLICT DO NOTHING` plus the
in-memory `Set.add`. -/
def addBlocked (ip : String) (blocked : List String) : List String :=
  if blocked.contains ip then blocked else blocked ++ [ip]

/-- `DELETE FROM blocked_ips WHERE ip = $1` plus `Set.delete`. -/
def removeBlocked (ip : String) (blocked : List String) : List String :=
  blocked.filter (fun x => x != ip)

/-! ## Effect traces

Each handler is embedded as a function from the inbound event and the
current world to the ordered list of its externally observable effects;
the resulting world is obtained by replaying the trace. -/

/-- One observable effect of a handler run. -/
inductive Eff where
  /-- `getUserState` query for an actor. -/
  | readState (chatId : String)
  /-- `setUserState` / `clearUserState` write. -/
  | writeState (chatId st : String) (ctx : Option Ctx)
  /-- `site_config` upsert. -/
  | configWrite (key value : String)
  /-- Single link-style media upsert. -/
  | mediaUpsertKeep (row : MediaRow)
  /-- Photo/video media upsert. -/
  | mediaUpsertAll (row : MediaRow)
  /-- The committed batch transaction, as one logical mutation. -/
  | mediaBatchCommit (rows : List MediaRow)
  /-- Media delete attempt; `found` records whether a row matched. -/
  | mediaDelete (id : String) (found : Bool)
  /-- Media field-update attempt; `found` records whether a row matched. -/
  | mediaUpdate (field id value : String) (found : Bool)
  /-- Blocklist insert. -/
  | blockAdd (ip : String)
  /-- Blocklist delete attempt. -/
  | blockRemove (ip : String) (found : Bool)
  /-- One `broadcastUpdate()` call (the Update Notifier signal). -/
  | broadcast
  /-- One audit-log entry. -/
  | logA (action : String)
  /-- One `bot.sendMessage` reply to the actor. -/
  | reply (chatId text : String)
deriving DecidableEq, Repr

/-- Replay one effect against the stores. -/
def applyEff (w : World) : Eff → World
  | .writeState c s x => { w with userDb := setUS w.userDb c s x }
  | .configWrite k v => { w with config := setKV w.config k v }
  | .mediaUpsertKeep r => { w with media := upsertKeep r w.media }
  | .mediaUpsertAll r => { w with media := upsertAll r w.media }
  | .mediaBatchCommit rows =>
    { w with media := rows.foldl (fun m r => upsertKeep r m) w.media }
  | .mediaDelete id _ => { w with media := deleteMedia id w.media }
  | .mediaUpdate f id v _ => { w with media := updateField f id v w.media }
  | .blockAdd ip => { w with blocked := addBlocked ip w.blocked }
  | .blockRemove ip _ => { w with blocked := removeBlocked ip w.blocked }
  | _ => w

/-- Replay a whole trace. -/
def applyEffs (w : World) (effs : List Eff) : World :=
  effs.foldl applyEff w

/-! ## Reply text constants (source message strings; long literals that no
claim inspects are condensed, interpolation of `e.message` is elided) -/

/-- The fixed rejection reply of `isAuthorized`. -/
def rejectionMsg : String := "Sorry, this is a private bot. You are not authorized."

/-- Reply to plain text in the idle state. -/
def idleGuidanceMsg : String := "❓ Send a command starting with / (e.g., /help)."

/-- The `/help` text (condensed; its content drives no behaviour). -/
def helpText : String := "👋 Welcome, Admin! (command overview)"

/-- Reply to an unknown slash-command. -/
def unknownCmdMsg : String := "❓ Unknown command. Type /help to see all commands."

/-- Re-prompt for an invalid single link. -/
def invalidLinkMsg : String :=
  "❌ Invalid Link. Only YouTube and Google Drive links are supported.\nPlease send me a valid link, or send /help to cancel."

/-- Re-prompt when a batch resolves zero links. -/
def zeroLinksMsg : String :=
  "❌ I found 0 valid links. Only YouTube and Google Drive links are supported.\nPlease send me a valid list of links, or send /help to cancel."

/-- The single failure reply of a rolled-back batch (`e.message` elided). -/
def batchErrMsg : String := "❌ Error adding batch: (database error)"

/-- The generic state-handler error reply (`e.message` elided). -/
def stateErrMsg : String := "❌ An error occurred: (error). Send /help to start over."

/-- Reply while `awaiting_profilephoto` receives text. -/
def waitingPhotoMsg : String :=
  "I am waiting for a photo. Please send me an image file, or send /help to cancel."

/-- Reply for a confusing stored state. -/
def confusedMsg : String :=
  "I was waiting for something, but I am confused. Send /help to start over."

/-- `/list` output (condensed formatting; row order models the query). -/
def listMsg (media : List MediaRow) : String :=
  if media.isEmpty then "No media found."
  else "*All Media (" ++ toString media.length ++ " items):*\n\n" ++
    joinWith "\n\n" (media.map (fun m =>
      "*" ++ (if m.project_name = "" then "Project" else m.project_name) ++ "* (" ++
        m.type ++ " / " ++ m.category ++ ")\nCap: " ++
        (if m.caption = "" then "N/A" else m.caption) ++ "\nID: `" ++
        m.file_unique_id ++ "`"))

/-- `/listblocked` output. -/
def listBlockedMsg (blocked : List String) : String :=
  if blocked.isEmpty then "No IPs are currently blocked."
  else "*Blocked IPs:*\n`" ++ joinWith "\n" blocked ++ "`"

/-! ## Conversation engine, v1.9 (`src/unnamed/part_003` lines 843-1220) -/

/-- The three effects of a successful `updateConfig` call, in source
order: the upsert, the audit entry, the notifier signal. -/
def updateConfigEffs (key value : String) : List Eff :=
  [.configWrite key value, .logA "CONFIG_UPDATE", .broadcast]

/-- The catch-all path of the dialog `try`: report the error and reset
the actor to idle. -/
def throwEffs (chatId : String) : List Eff :=
  [.reply chatId stateErrMsg, .writeState chatId "idle" none]

/-- Slash-command dispatch (the `switch` of Part 1 of the v1.9 text
handler).  Runs after the unconditional `clearUserState`; `media` and
`blocked` are the store snapshots `/list` and `/listblocked` read. -/
def cmdTrace (chatId text : String) (media : List MediaRow)
    (blocked : List String) : List Eff :=
  let command := lowerStr ((splitStr ' ' text).headD "")
  if command = "/start" ∨ command = "/help" then [.reply chatId helpText]
  else if command = "/setname" then
    [.writeState chatId "awaiting_name" none, .reply chatId "OK, send me the new name."]
  else if command = "/settitle" then
    [.writeState chatId "awaiting_title" none, .reply chatId "OK, send me the new title."]
  else if command = "/setdesc" then
    [.writeState chatId "awaiting_desc" none, .reply chatId "OK, send me the new description."]
  else if command = "/setphone" then
    [.writeState chatId "awaiting_phone" none, .reply chatId "OK, send me the new WhatsApp number."]
  else if command = "/setcall" then
    [.writeState chatId "awaiting_call" none, .reply chatId "OK, send me the new \"Call Now\" number."]
  else if command = "/setemail" then
    [.writeState chatId "awaiting_email" none, .reply chatId "OK, send me the new email address."]
  else if command = "/profilephoto" then
    [.writeState chatId "awaiting_profilephoto" none, .reply chatId "OK, send me the new profile photo."]
  else if command = "/add" then
    [.writeState chatId "awaiting_add_link" none, .reply chatId "OK, send me the link (YouTube or G-Drive)."]
  else if command = "/addbatch" then
    [.writeState chatId "awaiting_batch_links" none,
     .reply chatId "OK, paste your list of links (YouTube or G-Drive), one link per line."]
  else if command = "/delete" then
    [.writeState chatId "awaiting_delete_id" none,
     .reply chatId "OK, send me the ID of the media to delete.\n(You can get the ID from /list)"]
  else if command = "/edittitle" then
    [.writeState chatId "awaiting_edittitle_id" none,
     .reply chatId "OK, send me the ID of the media to edit.\n(You can get the ID from /list)"]
  else if command = "/editdesc" then
    [.writeState chatId "awaiting_editdesc_id" none,
     .reply chatId "OK, send me the ID of the media to edit.\n(You can get the ID from /list)"]
  else if command = "/list" then [.reply chatId (listMsg media)]
  else if command = "/block" then
    [.writeState chatId "awaiting_block_ip" none, .reply chatId "OK, send me the IP address to block."]
  else if command = "/unblock" then
    [.writeState chatId "awaiting_unblock_ip" none, .reply chatId "OK, send me the IP address to unblock."]
  else if command = "/listblocked" then [.reply chatId (listBlockedMsg blocked)]
  else if command = "/pause" then
    updateConfigEffs "site_status" "paused" ++
      [.logA "SITE_PAUSE", .reply chatId "⏸️ Website is now PAUSED."]
  else if command = "/resume" then
    updateConfigEffs "site_status" "live" ++
      [.logA "SITE_RESUME", .reply chatId "▶️ Website is now LIVE."]
  else [.reply chatId unknownCmdMsg]

/-- The batch transaction loop: upsert each row in order inside
`BEGIN`/`COMMIT`; the first injected store error aborts (`ROLLBACK`),
returning `none`. -/
def runBatch (env : Env) (i : Nat) : List MediaRow → List MediaRow → Option (List MediaRow)
  | [], acc => some acc
  | r :: rest, acc =>
    if env.batchFailAt i then none
    else runBatch env (i + 1) rest (upsertKeep r acc)

/-- Plain-text dispatch on a non-idle stored state (the `switch (state)`
of Part 2 of the v1.9 text handler), as the ordered effect trace. -/
def dialogTrace (env : Env) (chatId st : String) (ctx : Option Ctx)
    (text : String) (media : List MediaRow) (blocked : List String) : List Eff :=
  match st with
  | "awaiting_name" =>
    updateConfigEffs "profile_name" text ++
      [.reply chatId ("✅ Name updated to: " ++ text), .writeState chatId "idle" none]
  | "awaiting_title" =>
    updateConfigEffs "profile_title" text ++
      [.reply chatId ("✅ Title updated to: " ++ text), .writeState chatId "idle" none]
  | "awaiting_desc" =>
    updateConfigEffs "profile_desc" text ++
      [.reply chatId "✅ Description updated!", .writeState chatId "idle" none]
  | "awaiting_phone" =>
    updateConfigEffs "contact_phone_1" text ++
      [.reply chatId ("✅ WhatsApp Phone updated to: " ++ text), .writeState chatId "idle" none]
  | "awaiting_call" =>
    updateConfigEffs "contact_call" text ++
      [.reply chatId ("✅ Call Now Phone updated to: " ++ text), .writeState chatId "idle" none]
  | "awaiting_email" =>
    updateConfigEffs "contact_email" text ++
      [.reply chatId ("✅ Email updated to: " ++ text), .writeState chatId "idle" none]
  | "awaiting_add_link" =>
    match parseExternalLink env text with
    | none => [.reply chatId invalidLinkMsg]
    | some pl =>
      [.writeState chatId "awaiting_add_category" (some (.link pl)),
       .reply chatId "OK, link received. Now, what *category* is this video?"]
  | "awaiting_add_category" =>
    match ctx with
    | some (.link pl) =>
      [.writeState chatId "awaiting_add_project" (some (.linkCat pl (lowerStr text))),
       .reply chatId ("OK, category is \"" ++ lowerStr text ++ "\". Finally, what is the *project name* for this video?")]
    | _ => throwEffs chatId
  | "awaiting_add_project" =>
    match ctx with
    | some (.linkCat pl c) =>
      let pc := parseMediaCaption (c ++ " " ++ text)
      let row : MediaRow := ⟨pl.unique_id, pl.id, pl.type, pc.1, pc.2, ""⟩
      [.mediaUpsertKeep row, .logA "MEDIA_ADD_LINK", .broadcast,
       .reply chatId ("✅ " ++ pl.type ++ " video added to \"" ++ pc.1 ++ "\" gallery!"),
       .writeState chatId "idle" none]
    | _ => throwEffs chatId
  | "awaiting_batch_links" =>
    let links := ((splitStr '\n' text).map trimStr).filterMap (parseExternalLink env)
    if links.isEmpty then [.reply chatId zeroLinksMsg]
    else
      [.writeState chatId "awaiting_batch_category" (some (.batch links)),
       .reply chatId ("OK, I found " ++ toString links.length ++ " valid links. Now, what *category* should this batch be?")]
  | "awaiting_batch_category" =>
    match ctx with
    | some (.batch links) =>
      [.writeState chatId "awaiting_batch_project" (some (.batchCat links (lowerStr text))),
       .reply chatId ("OK, category is \"" ++ lowerStr text ++ "\". Finally, what is the *project name* for this whole batch?")]
    | _ => throwEffs chatId
  | "awaiting_batch_project" =>
    match ctx with
    | some (.batchCat links c) =>
      let pc := parseMediaCaption (c ++ " " ++ text)
      let rows := links.map (fun l => (⟨l.unique_id, l.id, l.type, pc.1, pc.2, ""⟩ : MediaRow))
      match runBatch env 0 rows media with
      | some _ =>
        [.mediaBatchCommit rows, .logA "MEDIA_ADD_BATCH", .broadcast,
         .reply chatId ("✅ Success! " ++ toString links.length ++ " items added to \"" ++ pc.1 ++ "\" under project \"" ++ pc.2 ++ "\"."),
         .writeState chatId "idle" none]
      | none => [.reply chatId batchErrMsg, .writeState chatId "idle" none]
    | _ => throwEffs chatId
  | "awaiting_delete_id" =>
    let found := hasMedia text media
    .mediaDelete text found ::
      (if found then
        [.logA "MEDIA_DELETE", .broadcast,
         .reply chatId ("✅ Media " ++ text ++ " deleted."), .writeState chatId "idle" none]
      else [.reply chatId ("❌ Media " ++ text ++ " not found. Send another ID, or /help to cancel.")])
  | "awaiting_edittitle_id" =>
    [.writeState chatId "awaiting_edittitle_value" (some (.target text)),
     .reply chatId ("OK, editing media " ++ text ++ ". What is the new *title*?")]
  | "awaiting_edittitle_value" =>
    [.mediaUpdate "project_name" (ctxRaw ctx) text (hasMedia (ctxRaw ctx) media),
     .logA "MEDIA_EDIT", .broadcast,
     .reply chatId ("✅ Media " ++ ctxRaw ctx ++ " title updated."),
     .writeState chatId "idle" none]
  | "awaiting_editdesc_id" =>
    [.writeState chatId "awaiting_editdesc_value" (some (.target text)),
     .reply chatId ("OK, editing media " ++ text ++ ". What is the new *description*?")]
  | "awaiting_editdesc_value" =>
    [.mediaUpdate "caption" (ctxRaw ctx) text (hasMedia (ctxRaw ctx) media),
     .logA "MEDIA_EDIT", .broadcast,
     .reply chatId ("✅ Media " ++ ctxRaw ctx ++ " description updated."),
     .writeState chatId "idle" none]
  | "awaiting_block_ip" =>
    [.blockAdd text, .logA "IP_BLOCK",
     .reply chatId ("🚫 IP " ++ text ++ " blocked."), .writeState chatId "idle" none]
  | "awaiting_unblock_ip" =>
    let found := blocked.contains text
    [.blockRemove text found, .logA "IP_UNBLOCK",
     .reply chatId (if found then "✅ IP " ++ text ++ " unblocked."
       else "🤷 IP " ++ text ++ " was not found."),
     .writeState chatId "idle" none]
  | "awaiting_profilephoto" => [.reply chatId waitingPhotoMsg]
  | _ => [.reply chatId confusedMsg, .writeState chatId "idle" none]

/-- Embedding of the v1.9 `bot.on('text')` handler as an effect trace:
authorization first, then the state load, then either the command path
(which clears the state before dispatching) or the dialog path. -/
def textTrace (env : Env) (chatId rawText : String) (w : World) : List Eff :=
  if chatId = env.admin then
    let text := trimStr rawText
    let sc := getUserState env w.userDb chatId
    .readState chatId ::
      (if strStartsWith text "/" then
        .logA "COMMAND_RECEIVED" :: .writeState chatId "idle" none ::
          cmdTrace chatId text w.media w.blocked
      else if sc.1 = "idle" then [.logA "IDLE_TEXT", .reply chatId idleGuidanceMsg]
      else dialogTrace env chatId sc.1 sc.2 text w.media w.blocked)
  else [.logA "UNAUTHORIZED_ACCESS", .reply chatId rejectionMsg]

/-- Embedding of the v1.9 `bot.on('photo')` handler. -/
def photoTrace (env : Env) (chatId caption fileId fileUniqueId : String)
    (w : World) : List Eff :=
  if chatId = env.admin then
    let sc := getUserState env w.userDb chatId
    .readState chatId ::
      (if sc.1 = "awaiting_profilephoto" then
        updateConfigEffs "profile_photo_file_id" fileId ++
          [.logA "PROFILE_PHOTO_UPDATE", .writeState chatId "idle" none,
           .reply chatId "✅ Profile photo updated!"]
      else
        let pc := parseMediaCaption caption
        [.logA "PHOTO_RECEIVED",
         .mediaUpsertAll ⟨fileUniqueId, fileId, "photo", pc.1, pc.2, caption⟩,
         .logA "MEDIA_ADD_PHOTO", .broadcast,
         .reply chatId ("✅ Photo added to \"" ++ pc.1 ++ "\" gallery.")])
  else [.logA "UNAUTHORIZED_ACCESS", .reply chatId rejectionMsg]

/-- Embedding of the v1.9 `bot.on('video')` handler (it consults no
conversation state). -/
def videoTrace (env : Env) (chatId caption fileId fileUniqueId : String)
    (_w : World) : List Eff :=
  if chatId = env.admin then
    let pc := parseMediaCaption caption
    [.logA "VIDEO_RECEIVED",
     .mediaUpsertAll ⟨fileUniqueId, fileId, "video", pc.1, pc.2, caption⟩,
     .logA "MEDIA_ADD_VIDEO", .broadcast,
     .reply chatId ("✅ Video added to \"" ++ pc.1 ++ "\" gallery.")]
  else [.logA "UNAUTHORIZED_ACCESS", .reply chatId rejectionMsg]

/-- Resulting world of one text event. -/
def runText (env : Env) (chatId rawText : String) (w : World) : World :=
  applyEffs w (textTrace env chatId rawText w)

/-- Resulting world of one photo event. -/
def runPhoto (env : Env) (chatId caption fileId fileUniqueId : String)
    (w : World) : World :=
  applyEffs w (photoTrace env chatId caption fileId fileUniqueId w)

/-- Resulting world of one video event. -/
def runVideo (env : Env) (chatId caption fileId fileUniqueId : String)
    (w : World) : World :=
  applyEffs w (videoTrace env chatId caption fileId fileUniqueId w)

/-! ## Command-form edit helper (`handleEdit`, `src/server.js` 322-339) -/

/-- Embedding of `handleEdit`: usage reply on a missing argument (JS
falsy check, modelled as the empty string), otherwise one field update
distinguishing found from not-found. -/
def handleEdit (field editId editValue chatId : String)
    (media : List MediaRow) : List Eff :=
  if editId = "" ∨ editValue = "" then
    [.reply chatId ("Usage: /" ++ (if field = "project_name" then "edittitle" else "editdesc") ++ " (id) (value)")]
  else
    let found := hasMedia editId media
    .mediaUpdate field editId editValue found ::
      (if found then
        [.logA "MEDIA_EDIT", .broadcast, .reply chatId ("✅ Media " ++ editId ++ " updated.")]
      else [.reply chatId ("❌ Media " ++ editId ++ " not found.")])

/-! ## Update Notifier (`broadcastUpdate` / `sseHandler`) -/

/-- Embedding of `broadcastUpdate` (`src/unnamed/part_003` lines
697-702, identical in `src/server.js`): one `res.write` per registered
channel, in registration order.  A Node `res.write` on a dead channel
reports failure without throwing, which the loop ignores; the function
returns the (unchanged) channel list and the per-channel write results. -/
def broadcastUpdateSse (failing : String → Bool) (clients : List String) :
    List String × List (String × Bool) :=
  (clients, clients.map (fun c => (c, !failing c)))

/-- Embedding of the `req.on('close')` unregistration in `sseHandler`:
the only path that removes a channel from the registration list. -/
def sseDisconnect (clients : List String) (clientId : String) : List String :=
  clients.filter (fun c => c ≠ clientId)

/-! ## HTTP gate middleware (pause gate, block gate) -/

/-- The outcome of the request-path gates. -/
inductive GateResult where
  | maintenance
  | forbidden
  | pass
deriving DecidableEq, Repr

/-- The pause middleware (`src/unnamed/part_003` lines 783-797): webhook
paths skip the gate; otherwise a paused `site_status` answers the fixed
maintenance response. -/
def pauseMw (pathStr : String) (config : List (String × String)) : Option GateResult :=
  if strStartsWith pathStr "/api/webhook/" then none
  else if lookupKV config "site_status" = some "paused" then some .maintenance
  else none

/-- The IP-block middleware (`src/unnamed/part_003` lines 799-806). -/
def blockMw (ip : String) (blocked : List String) : Option GateResult :=
  if blocked.contains ip then some .forbidden else none

/-- The middleware chain in source order: pause gate, then block gate,
then the rest of the app (`pass`). -/
def siteGate (pathStr ip : String) (config : List (String × String))
    (blocked : List String) : GateResult :=
  match pauseMw pathStr config with
  | some r => r
  | none =>
    match blockMw ip blocked with
    | some r => r
    | none => .pass

/-! ## Trace measurements -/

/-- Is this effect the Update Notifier signal? -/
def isBroadcastE : Eff → Bool
  | .broadcast => true
  | _ => false

/-- Is this effect a logical Config Store or Media Catalog mutation?  A
batch commit counts once; a delete counts only when a row matched; a
field update counts as the one logical mutation its handler performs
(the source fires its signal without consulting the row count). -/
def isCmMutE : Eff → Bool
  | .configWrite _ _ => true
  | .mediaUpsertKeep _ => true
  | .mediaUpsertAll _ => true
  | .mediaBatchCommit _ => true
  | .mediaDelete _ found => found
  | .mediaUpdate _ _ _ _ => true
  | _ => false

/-- Is this effect an Access Control List mutation? -/
def isAclMutE : Eff → Bool
  | .blockAdd _ => true
  | .blockRemove _ found => found
  | _ => false

/-- Does this effect read or write per-actor conversation state? -/
def isStateAccessE : Eff → Bool
  | .readState _ => true
  | .writeState _ _ _ => true
  | _ => false

/-- Is this effect any store mutation at all? -/
def isAnyMutE : Eff → Bool
  | .writeState _ _ _ => true
  | e => isCmMutE e || isAclMutE e

/-- Number of notifier signals in a trace. -/
def broadcasts (tr : List Eff) : Nat := tr.countP isBroadcastE

/-- Number of logical Config Store / Media Catalog mutations in a trace. -/
def cmMuts (tr : List Eff) : Nat := tr.countP isCmMutE

/-- Number of Access Control List mutations in a trace. -/
def aclMuts (tr : List Eff) : Nat := tr.countP isAclMutE

/-- The reply texts of a trace, in order. -/
def repliesOf (tr : List Eff) : List String :=
  tr.filterMap (fun e => match e with | .reply _ t => some t | _ => none)

/-- `SELECT * FROM media WHERE file_unique_id = $1` (first matching row). -/
def findMedia (id : String) : List MediaRow → Option MediaRow
  | [] => none
  | r :: rest => if r.file_unique_id = id then some r else findMedia id rest

/-! ## Concrete fixtures (used by witnesses and counterexamples) -/

/-- A small concrete `new URL` table for witness runs. -/
def urlParseW : String → Option UrlParts := fun s =>
  if s = "https://youtu.be/abc" then some ⟨"youtu.be", "/abc", none⟩
  else if s = "https://www.youtube.com/watch?v=abc" then
    some ⟨"www.youtube.com", "/watch", some "abc"⟩
  else none

/-- Witness environment: admin `"1"`, no injected failures. -/
def envW : Env := ⟨"1", urlParseW, fun _ => false, false⟩

/-- Witness environment whose second batch insert fails. -/
def envWFail : Env := ⟨"1", urlParseW, fun i => i == 1, false⟩

/-- Witness environment whose state-load query fails. -/
def envWErr : Env := ⟨"1", urlParseW, fun _ => false, true⟩

/-- Empty stores. -/
def wEmpty : World := ⟨[], [], [], []⟩

/-- Two distinct resolved links for batch runs. -/
def linksW : List ParsedLink :=
  [⟨"youtube", "a", "youtube-a"⟩, ⟨"youtube", "b", "youtube-b"⟩]

/-- World whose admin sits at the final batch prompt. -/
def wBatchW : World :=
  ⟨[("1", "awaiting_batch_project", some (.batchCat linksW "stall"))], [], [], []⟩

/-- World whose admin sits at the block-IP prompt. -/
def wBlockW : World := ⟨[("1", "awaiting_block_ip", none)], [], [], []⟩

/-- World whose admin sits at the edit-title value prompt for an id that
is not in the (empty) catalog. -/
def wEditW : World :=
  ⟨[("1", "awaiting_edittitle_value", some (.target "missing"))], [], [], []⟩

/-- World with a persisted non-idle state, for the load-failure witness. -/
def wStateW : World := ⟨[("1", "awaiting_name", none)], [], [], []⟩

/-- Pause-mode config fixture. -/
def cfgPausedW : List (String × String) := [("site_status", "paused")]

/-- A write-failure predicate hitting only channel `"a"`. -/
def failW : String → Bool := fun c => c == "a"

/-! ## Helper lemmas -/

theorem setUS_setUS (db : List (String × String × Option Ctx)) (k s c s' c') :
    setUS (setUS db k s c) k s' c' = setUS db k s' c' := by
  induction db with
  | nil => simp [setUS]
  | cons h t ih =>
    obtain ⟨hk, hsc⟩ := h
    by_cases hkk : hk = k
    · simp [setUS, hkk]
    · simp [setUS, hkk, ih]

theorem lookupUS_setUS_self (db : List (String × String × Option Ctx)) (k s c) :
    lookupUS (setUS db k s c) k = some (s, c) := by
  induction db with
  | nil => simp [setUS, lookupUS]
  | cons h t ih =>
    obtain ⟨hk, hsc⟩ := h
    by_cases hkk : hk = k
    · simp [setUS, hkk, lookupUS]
    · simp [setUS, hkk, lookupUS, ih]

theorem applyEffs_cons (w : World) (e : Eff) (es : List Eff) :
    applyEffs w (e :: es) = applyEffs (applyEff w e) es := rfl

theorem upsertKeep_idem (row : MediaRow) (m : List MediaRow) :
    upsertKeep row (upsertKeep row m) = upsertKeep row m := by
  induction m with
  | nil => simp [upsertKeep]
  | cons r rest ih =>
    by_cases h : r.file_unique_id = row.file_unique_id
    · simp [upsertKeep, h]
    · simp only [upsertKeep, beq_iff_eq, h, if_neg h, ite_false]
      simp [h, ih]

theorem splitChar_ne_nil (sep : Char) (l : List Char) : splitChar sep l ≠ [] := by
  induction l with
  | nil => simp [splitChar]
  | cons c rest ih =>
    by_cases h : c = sep
    · simp [splitChar, h]
    · simp only [splitChar, if_neg h]
      cases hs : splitChar sep rest with
      | nil => exact absurd hs ih
      | cons a b => simp

theorem splitStr_ne_nil (sep : Char) (s : String) : splitStr sep s ≠ [] := by
  unfold splitStr
  simp [splitChar_ne_nil]

theorem runBatch_none_iff (env : Env) (rows : List MediaRow) :
    ∀ (i : Nat) (acc : List MediaRow),
      (runBatch env i rows acc = none ↔
        ∃ j, j < rows.length ∧ env.batchFailAt (i + j) = true) := by
  induction rows with
  | nil => intro i acc; simp [runBatch]
  | cons r rest ih =>
    intro i acc
    by_cases h : env.batchFailAt i = true
    · simp only [runBatch, h, if_true]
      constructor
      · intro _; exact ⟨0, by simp, by simpa using h⟩
      · intro _; trivial
    · simp only [runBatch, h, if_false, Bool.false_eq_true]
      rw [ih (i + 1)]
      constructor
      · rintro ⟨j, hj, hf⟩
        exact ⟨j + 1, by simpa using Nat.succ_lt_succ hj, by
          have : i + 1 + j = i + (j + 1) := by omega
          rwa [this] at hf⟩
      · rintro ⟨j, hj, hf⟩
        cases j with
        | zero => simp at hf; exact absurd hf h
        | succ j' =>
          refine ⟨j', by simpa using Nat.lt_of_succ_lt_succ hj, ?_⟩
          have : i + (j' + 1) = i + 1 + j' := by omega
          rwa [this] at hf

theorem findMedia_upsertKeep_self (row : MediaRow) (m : List MediaRow) :
    ∃ x, findMedia row.file_unique_id (upsertKeep row m) = some x ∧
      x.file_unique_id = row.file_unique_id ∧ x.file_id = row.file_id ∧
      x.type = row.type ∧ x.category = row.category ∧
      x.project_name = row.project_name := by
  induction m with
  | nil => exact ⟨row, by simp [upsertKeep, findMedia], by simp⟩
  | cons r rest ih =>
    by_cases h : r.file_unique_id = row.file_unique_id
    · refine ⟨{ row with caption := r.caption }, ?_, by simp⟩
      simp [upsertKeep, h, findMedia]
    · obtain ⟨x, hx, hf⟩ := ih
      refine ⟨x, ?_, hf⟩
      simp only [upsertKeep, beq_iff_eq, if_neg h]
      simpa [findMedia, h] using hx

theorem findMedia_upsertKeep_other (row : MediaRow) (m : List MediaRow) (k : String)
    (h : k ≠ row.file_unique_id) :
    findMedia k (upsertKeep row m) = findMedia k m := by
  induction m with
  | nil =>
    simp only [upsertKeep, findMedia]
    rw [if_neg (fun hh => h hh.symm)]
  | cons r rest ih =>
    by_cases hr : r.file_unique_id = row.file_unique_id
    · simp only [upsertKeep, beq_iff_eq, if_pos hr]
      have hrk : ¬ r.file_unique_id = k := by rw [hr]; exact fun hh => h hh.symm
      simp only [findMedia]
      rw [if_neg (by simpa using fun hh => h hh.symm), if_neg hrk]
    · simp only [upsertKeep, beq_iff_eq, if_neg hr]
      by_cases hrk : r.file_unique_id = k
      · simp [findMedia, hrk]
      · simpa [findMedia, hrk] using ih

theorem foldl_upsertKeep_good (pc pp : String) :
    ∀ (rows acc : List MediaRow) (k : String),
      (∀ r ∈ rows, r.category = pc ∧ r.project_name = pp) →
      ((∃ x, findMedia k acc = some x ∧ x.category = pc ∧ x.project_name = pp) ∨
        k ∈ rows.map MediaRow.file_unique_id) →
      ∃ x, findMedia k (rows.foldl (fun m r => upsertKeep r m) acc) = some x ∧
        x.category = pc ∧ x.project_name = pp := by
  intro rows
  induction rows with
  | nil =>
    intro acc k _ hk
    rcases hk with hk | hk
    · simpa using hk
    · simp at hk
  | cons r rest ih =>
    intro acc k hall hk
    have hr : r.category = pc ∧ r.project_name = pp := hall r (by simp)
    have hrest : ∀ r' ∈ rest, r'.category = pc ∧ r'.project_name = pp :=
      fun r' hr' => hall r' (by simp [hr'])
    simp only [List.foldl_cons]
    apply ih (upsertKeep r acc) k hrest
    by_cases hkr : k = r.file_unique_id
    · left
      obtain ⟨x, hx, _, _, _, hcat, hproj⟩ := findMedia_upsertKeep_self r acc
      exact ⟨x, by rwa [hkr], by rwa [hr.1] at hcat, by rwa [hr.2] at hproj⟩
    · rcases hk with hk | hk
      · left
        obtain ⟨x, hx, hg⟩ := hk
        exact ⟨x, by rw [findMedia_upsertKeep_other r acc k hkr]; exact hx, hg⟩
      · simp only [List.map_cons, List.mem_cons] at hk
        rcases hk with hk | hk
        · exact absurd hk hkr
        · right; exact hk

theorem updateField_not_found (field id v : String) (m : List MediaRow)
    (h : hasMedia id m = false) : updateField field id v m = m := by
  induction m with
  | nil => rfl
  | cons r rest ih =>
    simp only [hasMedia, List.any_cons, Bool.or_eq_false_iff] at h
    have h2 : updateField field id v rest = rest := by
      apply ih; simpa [hasMedia] using h.2
    simp only [updateField, List.map_cons] at h2 ⊢
    rw [if_neg (by simp [h.1]), h2]

theorem textTrace_cmd (env : Env) (chatId raw : String) (w : World)
    (hadmin : chatId = env.admin)
    (hcmd : strStartsWith (trimStr raw) "/" = true) :
    textTrace env chatId raw w =
      .readState chatId :: .logA "COMMAND_RECEIVED" :: .writeState chatId "idle" none ::
        cmdTrace chatId (trimStr raw) w.media w.blocked := by
  unfold textTrace
  rw [if_pos hadmin]
  simp only [hcmd, if_true]

theorem textTrace_dialog (env : Env) (chatId raw st : String) (ctx : Option Ctx)
    (w : World)
    (hadmin : chatId = env.admin) (hload : env.stateLoadErr = false)
    (hus : lookupUS w.userDb chatId = some (st, ctx))
    (hcmd : strStartsWith (trimStr raw) "/" = false)
    (hidle : st ≠ "idle") :
    textTrace env chatId raw w =
      .readState chatId ::
        dialogTrace env chatId st ctx (trimStr raw) w.media w.blocked := by
  unfold textTrace getUserState
  rw [if_pos hadmin]
  simp only [hload, Bool.false_eq_true, if_false, hus, hcmd, hidle, ite_false]

/-! ## Claim theorems -/

/-- C1: for every inbound event (slash-command, plain text, or media
message) whose actor identity differs from the configured administrator,
the engine emits only the unauthorized audit entry and the fixed
rejection reply: the trace contains no conversation-state read or write
and no store mutation, and replaying it leaves every store unchanged.
In particular the authorization check precedes any state lookup, since
no state lookup occurs at all. -/
theorem unauthorized_event_rejected (env : Env) (chatId t cap fid fuid : String)
    (w : World) (h : chatId ≠ env.admin) :
    textTrace env chatId t w = [.logA "UNAUTHORIZED_ACCESS", .reply chatId rejectionMsg] ∧
    photoTrace env chatId cap fid fuid w =
      [.logA "UNAUTHORIZED_ACCESS", .reply chatId rejectionMsg] ∧
    videoTrace env chatId cap fid fuid w =
      [.logA "UNAUTHORIZED_ACCESS", .reply chatId rejectionMsg] ∧
    runText env chatId t w = w ∧
    runPhoto env chatId cap fid fuid w = w ∧
    runVideo env chatId cap fid fuid w = w ∧
    (textTrace env chatId t w).countP isStateAccessE = 0 ∧
    (textTrace env chatId t w).countP isAnyMutE = 0 := by
  have ht : textTrace env chatId t w =
      [.logA "UNAUTHORIZED_ACCESS", .reply chatId rejectionMsg] := by
    unfold textTrace; rw [if_neg h]
  have hp : photoTrace env chatId cap fid fuid w =
      [.logA "UNAUTHORIZED_ACCESS", .reply chatId rejectionMsg] := by
    unfold photoTrace; rw [if_neg h]
  have hv : videoTrace env chatId cap fid fuid w =
      [.logA "UNAUTHORIZED_ACCESS", .reply chatId rejectionMsg] := by
    unfold videoTrace; rw [if_neg h]
  refine ⟨ht, hp, hv, ?_, ?_, ?_, ?_, ?_⟩
  · unfold runText; rw [ht]; rfl
  · unfold runPhoto; rw [hp]; rfl
  · unfold runVideo; rw [hv]; rfl
  · rw [ht]; rfl
  · rw [ht]; rfl

/-- Witness for C1: a concrete non-admin actor `"2"` sending `/pause`
gets exactly the rejection, and the stores stay untouched. -/
theorem unauthorized_event_rejected_witness :
    ("2" : String) ≠ envW.admin ∧
    textTrace envW "2" "/pause" wEmpty =
      [.logA "UNAUTHORIZED_ACCESS", .reply "2" rejectionMsg] ∧
    runText envW "2" "/pause" wEmpty = wEmpty :=
  ⟨by decide,
    (unauthorized_event_rejected envW "2" "/pause" "c" "f" "u" wEmpty (by decide)).1,
    (unauthorized_event_rejected envW "2" "/pause" "c" "f" "u" wEmpty (by decide)).2.2.2.1⟩

/-- C3: a slash-command from the admin always resets the persisted state
to idle (null context) before the command dispatch ever runs, and the
whole run (trace and resulting world) is invariant under whatever dialog
state was stored, so a command is never consumed as dialog input. -/
theorem slash_command_resets_state (env : Env) (chatId raw : String) (w : World)
    (hadmin : chatId = env.admin)
    (hcmd : strStartsWith (trimStr raw) "/" = true) :
    textTrace env chatId raw w =
      .readState chatId :: .logA "COMMAND_RECEIVED" :: .writeState chatId "idle" none ::
        cmdTrace chatId (trimStr raw) w.media w.blocked ∧
    ∀ s₁ c₁ s₂ c₂,
      textTrace env chatId raw { w with userDb := setUS w.userDb chatId s₁ c₁ } =
        textTrace env chatId raw { w with userDb := setUS w.userDb chatId s₂ c₂ } ∧
      runText env chatId raw { w with userDb := setUS w.userDb chatId s₁ c₁ } =
        runText env chatId raw { w with userDb := setUS w.userDb chatId s₂ c₂ } := by
  refine ⟨textTrace_cmd env chatId raw w hadmin hcmd, ?_⟩
  intro s₁ c₁ s₂ c₂
  have h1 := textTrace_cmd env chatId raw
    { w with userDb := setUS w.userDb chatId s₁ c₁ } hadmin hcmd
  have h2 := textTrace_cmd env chatId raw
    { w with userDb := setUS w.userDb chatId s₂ c₂ } hadmin hcmd
  refine ⟨by rw [h1, h2], ?_⟩
  unfold runText
  rw [h1, h2]
  simp only [applyEffs, List.foldl_cons]
  simp [applyEff, setUS_setUS]

/-- Witness for C3: `/add` from the admin while a dialog state
(`awaiting_name`) is stored produces the reset-first trace and the same
run as from the idle state. -/
theorem slash_command_resets_state_witness :
    textTrace envW "1" "/add" wEmpty =
      .readState "1" :: .logA "COMMAND_RECEIVED" :: .writeState "1" "idle" none ::
        cmdTrace "1" (trimStr "/add") wEmpty.media wEmpty.blocked ∧
    textTrace envW "1" "/add" { wEmpty with userDb := setUS wEmpty.userDb "1" "awaiting_name" none } =
      textTrace envW "1" "/add" { wEmpty with userDb := setUS wEmpty.userDb "1" "idle" none } := by
  have h := slash_command_resets_state envW "1" "/add" wEmpty rfl (by decide)
  exact ⟨h.1, (h.2 "awaiting_name" none "idle" none).1⟩

theorem dialogTrace_batch_project (env : Env) (chatId catg t : String)
    (links : List ParsedLink) (m : List MediaRow) (b : List String) :
    dialogTrace env chatId "awaiting_batch_project" (some (.batchCat links catg)) t m b =
      (let pc := parseMediaCaption (catg ++ " " ++ t)
       let rows := links.map fun l =>
         (⟨l.unique_id, l.id, l.type, pc.1, pc.2, ""⟩ : MediaRow)
       match runBatch env 0 rows m with
       | some _ =>
         [.mediaBatchCommit rows, .logA "MEDIA_ADD_BATCH", .broadcast,
          .reply chatId ("✅ Success! " ++ toString links.length ++ " items added to \"" ++
            pc.1 ++ "\" under project \"" ++ pc.2 ++ "\"."),
          .writeState chatId "idle" none]
       | none => [.reply chatId batchErrMsg, .writeState chatId "idle" none]) := rfl

/-- C2: committing at `awaiting_batch_project` is all-or-nothing.  If any
row insert of the batch fails, replaying the event leaves the catalog
exactly as it was — none of the N records is present afterwards (given it
was absent before) — and the actor receives the single failure reply.
If no insert fails, every accepted link ends up in the catalog under the
one shared category/project pair of the batch. -/
theorem batch_commit_atomic (env : Env) (chatId text catg : String) (w : World)
    (links : List ParsedLink)
    (hadmin : chatId = env.admin) (hload : env.stateLoadErr = false)
    (hus : lookupUS w.userDb chatId =
      some ("awaiting_batch_project", some (.batchCat links catg)))
    (hcmd : strStartsWith (trimStr text) "/" = false) :
    ((∃ i, i < links.length ∧ env.batchFailAt i = true) →
      (runText env chatId text w).media = w.media ∧
      repliesOf (textTrace env chatId text w) = [batchErrMsg] ∧
      ∀ l ∈ links, hasMedia l.unique_id w.media = false →
        hasMedia l.unique_id (runText env chatId text w).media = false) ∧
    ((∀ i, i < links.length → env.batchFailAt i = false) →
      ∀ l ∈ links, ∃ x,
        findMedia l.unique_id (runText env chatId text w).media = some x ∧
        x.category = (parseMediaCaption (catg ++ " " ++ trimStr text)).1 ∧
        x.project_name = (parseMediaCaption (catg ++ " " ++ trimStr text)).2) := by
  have hshape := textTrace_dialog env chatId text "awaiting_batch_project"
    (some (.batchCat links catg)) w hadmin hload hus hcmd (by decide)
  rw [dialogTrace_batch_project] at hshape
  simp only at hshape
  set pc := parseMediaCaption (catg ++ " " ++ trimStr text) with hpc
  set rows := links.map fun l =>
    (⟨l.unique_id, l.id, l.type, pc.1, pc.2, ""⟩ : MediaRow) with hrows
  have hlen : rows.length = links.length := by simp [hrows]
  rcases hfb : runBatch env 0 rows w.media with _ | m'
  · -- the transaction rolled back
    rw [hfb] at hshape
    constructor
    · intro _
      have hrun : (runText env chatId text w).media = w.media := by
        unfold runText
        rw [hshape]
        simp [applyEffs, applyEff]
      refine ⟨hrun, ?_, ?_⟩
      · rw [hshape]; rfl
      · intro l _ habs
        rw [hrun]; exact habs
    · intro hok
      exfalso
      rw [runBatch_none_iff] at hfb
      obtain ⟨j, hj, hf⟩ := hfb
      have := hok j (by rwa [hlen] at hj)
      simp [this] at hf
  · -- the transaction committed
    rw [hfb] at hshape
    constructor
    · intro hfail
      exfalso
      obtain ⟨i, hi, hf⟩ := hfail
      have : runBatch env 0 rows w.media = none := by
        rw [runBatch_none_iff]
        exact ⟨i, by rwa [hlen], by simpa using hf⟩
      rw [hfb] at this
      exact Option.noConfusion this
    · intro _ l hl
      have hrun : (runText env chatId text w).media =
          rows.foldl (fun m r => upsertKeep r m) w.media := by
        unfold runText
        rw [hshape]
        simp [applyEffs, applyEff]
      rw [hrun]
      apply foldl_upsertKeep_good pc.1 pc.2 rows w.media l.unique_id
      · intro r hr
        rw [hrows] at hr
        simp only [List.mem_map] at hr
        obtain ⟨l', _, hl'⟩ := hr
        rw [← hl']
        exact ⟨rfl, rfl⟩
      · right
        rw [hrows]
        simp only [List.map_map, List.mem_map]
        exact ⟨l, hl, rfl⟩

/-- Witness for C2: a concrete two-link batch whose second insert fails
leaves the catalog empty and yields exactly one failure reply. -/
theorem batch_commit_atomic_witness :
    (runText envWFail "1" "Expo" wBatchW).media = wBatchW.media ∧
    repliesOf (textTrace envWFail "1" "Expo" wBatchW) = [batchErrMsg] := by
  have h := batch_commit_atomic envWFail "1" "Expo" "stall" wBatchW linksW
    rfl rfl rfl (by decide)
  have hf := h.1 ⟨1, by decide, by decide⟩
  exact ⟨hf.1, hf.2.1⟩

/-- C4 counterexample: for the caption `"myevent party"` the first token
`"myevent"` is not in the category set, so the first-token rule demands
category `"general"`; both implementations instead derive `"event"`,
because the category comes from a substring search over the whole
caption, not from the first token. -/
theorem caption_first_token_rule_counterexample :
    parseMediaCaption "myevent party" = ("event", "Myevent party") ∧
    parseMediaCaptionV7 "myevent party" = ("event", "Myevent") ∧
    specFirstTokenRule "myevent party" = ("general", "myevent party") ∧
    categoryWords.contains (lowerStr "myevent") = false := by
  refine ⟨by decide, by decide, by decide, by decide⟩

/-- C4 amended: the category accompanying an uploaded image or native
video is derived by keyword *substring* search over the lowercased
caption (priority anamorphic, then event, then stall, defaulting to
general), not by first-token comparison; the project name follows the
first-token rule — the first token is dropped exactly when the caption
has at least two tokens and that token, lowercased, is in the category
word set — and is then capitalised and stripped of characters other than
alphanumerics and whitespace. -/
theorem caption_rule_amended (caption : String) :
    (parseMediaCaption caption).1 = substringCategory caption ∧
    (parseMediaCaption caption).2 = cleanupName (firstTokenRemainder caption) := by
  constructor
  · rfl
  · rcases hs : splitStr ' ' caption with _ | ⟨w, rest⟩
    · exact absurd hs (splitStr_ne_nil ' ' caption)
    · simp only [parseMediaCaption, cleanupName, firstTokenRemainder, hs]
      rcases rest with _ | ⟨r, rs⟩
      · simp
      · by_cases hc : categoryWords.contains (lowerStr w) = true
        · simp [hc]
        · simp [hc]

theorem parseExternalLink_shape (env : Env) (l : String) (r : ParsedLink)
    (h : parseExternalLink env l = some r) :
    (r.type = "youtube" ∧ r.unique_id = "youtube-" ++ r.id) ∨
    (r.type = "gdrive" ∧ r.unique_id = "gdrive-" ++ r.id) := by
  unfold parseExternalLink at h
  rcases hu : env.urlParse l with _ | u
  · rw [hu] at h; exact Option.noConfusion h
  · rw [hu] at h
    dsimp only at h
    by_cases hyt : (containsSub u.hostname "youtube.com" ||
        containsSub u.hostname "youtu.be") = true
    · rw [if_pos hyt] at h
      set vid := if containsSub u.hostname "youtu.be" = true then u.pathname.drop 1
        else u.queryV.getD "" with hvid
      by_cases hempty : vid = ""
      · rw [if_pos hempty] at h; exact Option.noConfusion h
      · rw [if_neg hempty] at h
        obtain rfl := Option.some.inj h
        exact Or.inl ⟨rfl, rfl⟩
    · rw [if_neg hyt] at h
      by_cases hgd : containsSub u.hostname "drive.google.com" = true
      · rw [if_pos hgd] at h
        rcases hf : findAfterD (splitStr '/' u.pathname) with _ | fid
        · rw [hf] at h; exact Option.noConfusion h
        · rw [hf] at h
          dsimp only at h
          by_cases hempty : fid = ""
          · rw [if_pos hempty] at h; exact Option.noConfusion h
          · rw [if_neg hempty] at h
            obtain rfl := Option.some.inj h
            exact Or.inr ⟨rfl, rfl⟩
      · rw [if_neg hgd] at h; exact Option.noConfusion h

/-- C5: the Link Resolver is deterministic — it is a pure function, and
the derived catalog key is a function of the provider and external id
alone — and re-adding an already-present link upserts in place, so the
catalog (and in particular its size) is unchanged by a second add with
identical fields. -/
theorem link_resolver_idempotent :
    (∀ (env : Env) (l : String) (r r' : ParsedLink),
      parseExternalLink env l = some r → parseExternalLink env l = some r' →
      r.unique_id = r'.unique_id) ∧
    (∀ (env : Env) (l₁ l₂ : String) (r₁ r₂ : ParsedLink),
      parseExternalLink env l₁ = some r₁ → parseExternalLink env l₂ = some r₂ →
      r₁.type = r₂.type → r₁.id = r₂.id → r₁.unique_id = r₂.unique_id) ∧
    (∀ (row : MediaRow) (m : List MediaRow),
      upsertKeep row (upsertKeep row m) = upsertKeep row m) ∧
    (∀ (row : MediaRow) (m : List MediaRow),
      (upsertKeep row (upsertKeep row m)).length = (upsertKeep row m).length) := by
  refine ⟨?_, ?_, upsertKeep_idem, fun row m => by rw [upsertKeep_idem]⟩
  · intro env l r r' h h'
    rw [h] at h'
    rw [Option.some.inj h']
  · intro env l₁ l₂ r₁ r₂ h₁ h₂ htype hid
    rcases parseExternalLink_shape env l₁ r₁ h₁ with ⟨ht₁, hu₁⟩ | ⟨ht₁, hu₁⟩ <;>
      rcases parseExternalLink_shape env l₂ r₂ h₂ with ⟨ht₂, hu₂⟩ | ⟨ht₂, hu₂⟩
    · rw [hu₁, hu₂, hid]
    · rw [ht₁, ht₂] at htype; exact absurd htype (by decide)
    · rw [ht₁, ht₂] at htype; exact absurd htype (by decide)
    · rw [hu₁, hu₂, hid]

/-- Witness for C5: two different YouTube URL spellings of the same
video id resolve to the same derived key, and re-adding the resulting
record leaves the catalog size at one. -/
theorem link_resolver_idempotent_witness :
    parseExternalLink envW "https://youtu.be/abc" =
      some ⟨"youtube", "abc", "youtube-abc"⟩ ∧
    parseExternalLink envW "https://www.youtube.com/watch?v=abc" =
      some ⟨"youtube", "abc", "youtube-abc"⟩ ∧
    (⟨"youtube", "abc", "youtube-abc"⟩ : ParsedLink).unique_id =
      (⟨"youtube", "abc", "youtube-abc"⟩ : ParsedLink).unique_id ∧
    (upsertKeep ⟨"youtube-abc", "abc", "youtube", "stall", "Expo", ""⟩
        (upsertKeep ⟨"youtube-abc", "abc", "youtube", "stall", "Expo", ""⟩ [])).length =
      (upsertKeep ⟨"youtube-abc", "abc", "youtube", "stall", "Expo", ""⟩ []).length := by
  refine ⟨by decide, by decide, ?_, ?_⟩
  · exact link_resolver_idempotent.2.1 envW "https://youtu.be/abc"
      "https://www.youtube.com/watch?v=abc" _ _ (by decide) (by decide) rfl rfl
  · exact link_resolver_idempotent.2.2.2 _ _

theorem cmd_countP (chatId t : String) (m : List MediaRow) (b : List String) :
    (cmdTrace chatId t m b).countP isBroadcastE =
      (cmdTrace chatId t m b).countP isCmMutE := by
  unfold cmdTrace
  simp only [apply_ite (List.countP isBroadcastE), apply_ite (List.countP isCmMutE)]
  simp [updateConfigEffs, List.countP_cons, List.countP_nil, isBroadcastE, isCmMutE]

theorem dialog_countP (env : Env) (chatId st : String) (ctx : Option Ctx)
    (t : String) (m : List MediaRow) (b : List String) :
    (dialogTrace env chatId st ctx t m b).countP isBroadcastE =
      (dialogTrace env chatId st ctx t m b).countP isCmMutE := by
  unfold dialogTrace
  split <;> (try split)
  all_goals
    try (simp [updateConfigEffs, throwEffs, List.countP_cons, List.countP_nil,
      isBroadcastE, isCmMutE]; done)
  all_goals dsimp only
  all_goals
    split <;> simp_all [updateConfigEffs, throwEffs, List.countP_cons, List.countP_nil,
      isBroadcastE, isCmMutE]

/-- C6 counterexample: blocking an IP through the `awaiting_block_ip`
dialog mutates the Access Control List (the blocked set gains the IP)
with zero notifier signals in the trace, so not every externally visible
mutation is followed by a signal; and the edit-value step fires one
signal even though its target id matches no record and the Media Catalog
is left unchanged, so a signal can fire without a mutation. -/
theorem notifier_per_mutation_counterexample :
    (runText envW "1" "2.2.2.2" wBlockW).blocked = ["2.2.2.2"] ∧
    wBlockW.blocked = [] ∧
    broadcasts (textTrace envW "1" "2.2.2.2" wBlockW) = 0 ∧
    broadcasts (textTrace envW "1" "New" wEditW) = 1 ∧
    (runText envW "1" "New" wEditW).media = [] ∧
    wEditW.media = [] := by
  refine ⟨by decide, by decide, by decide, by decide, by decide, by decide⟩

/-- C6 amended: for every inbound text, photo or video event, the number
of Update Notifier signals in the trace equals the number of logical
Config Store / Media Catalog commits (a batch counts once after commit,
a delete counts only when a row matched, and a field update counts as
the one commit its handler performs whether or not a row matched) — but
Access Control List mutations are excluded: they emit no signal. -/
theorem notifier_signal_per_mutation (env : Env) (chatId raw cap fid fuid : String)
    (w : World) :
    broadcasts (textTrace env chatId raw w) = cmMuts (textTrace env chatId raw w) ∧
    broadcasts (photoTrace env chatId cap fid fuid w) =
      cmMuts (photoTrace env chatId cap fid fuid w) ∧
    broadcasts (videoTrace env chatId cap fid fuid w) =
      cmMuts (videoTrace env chatId cap fid fuid w) := by
  refine ⟨?_, ?_, ?_⟩
  · unfold broadcasts cmMuts textTrace
    by_cases h : chatId = env.admin
    · rw [if_pos h]
      dsimp only
      split <;>
        simp [List.countP_cons, List.countP_nil, isBroadcastE, isCmMutE,
          cmd_countP, dialog_countP]
      split <;>
        simp [List.countP_cons, List.countP_nil, isBroadcastE, isCmMutE, dialog_countP]
    · rw [if_neg h]
      simp [List.countP_cons, List.countP_nil, isBroadcastE, isCmMutE]
  · unfold broadcasts cmMuts photoTrace
    by_cases h : chatId = env.admin
    · rw [if_pos h]
      dsimp only
      split <;>
        simp [updateConfigEffs, List.countP_cons, List.countP_nil, List.countP_append,
          isBroadcastE, isCmMutE]
    · rw [if_neg h]
      simp [List.countP_cons, List.countP_nil, isBroadcastE, isCmMutE]
  · unfold broadcasts cmMuts videoTrace
    by_cases h : chatId = env.admin
    · rw [if_pos h]
      simp [List.countP_cons, List.countP_nil, isBroadcastE, isCmMutE]
    · rw [if_neg h]
      simp [List.countP_cons, List.countP_nil, isBroadcastE, isCmMutE]

/-- C7 counterexample: at the conversational edit-value step with a
target id (`"missing"`) matching no media record, the engine still
reports success ("title updated") — it never tells the actor the id was
not found — and the catalog stays empty. -/
theorem edit_not_found_counterexample :
    repliesOf (textTrace envW "1" "New" wEditW) =
      ["✅ Media missing title updated."] ∧
    hasMedia "missing" wEditW.media = false ∧
    (runText envW "1" "New" wEditW).media = [] := by
  refine ⟨by decide, by decide, by decide⟩

/-- C7 amended: the conversational edit-value step issues the field
update and reports success unconditionally — not-found is not
distinguished (the catalog changes only if the id matched); the
command-form `handleEdit` of the v1.7 server does distinguish: success
with one signal when a row matched, a distinct not-found reply and no
catalog change when none did. -/
theorem edit_field_update_behaviour :
    (∀ (env : Env) (chatId id t : String) (w : World),
      chatId = env.admin → env.stateLoadErr = false →
      lookupUS w.userDb chatId =
        some ("awaiting_edittitle_value", some (.target id)) →
      strStartsWith (trimStr t) "/" = false →
      repliesOf (textTrace env chatId t w) =
        ["✅ Media " ++ id ++ " title updated."] ∧
      broadcasts (textTrace env chatId t w) = 1 ∧
      (runText env chatId t w).media =
        updateField "project_name" id (trimStr t) w.media) ∧
    (∀ (field id v chatId : String) (m : List MediaRow),
      id ≠ "" → v ≠ "" →
      (hasMedia id m = true →
        handleEdit field id v chatId m =
          [.mediaUpdate field id v true, .logA "MEDIA_EDIT", .broadcast,
           .reply chatId ("✅ Media " ++ id ++ " updated.")]) ∧
      (hasMedia id m = false →
        handleEdit field id v chatId m =
          [.mediaUpdate field id v false,
           .reply chatId ("❌ Media " ++ id ++ " not found.")] ∧
        updateField field id v m = m)) := by
  constructor
  · intro env chatId id t w hadmin hload hus hcmd
    have hshape := textTrace_dialog env chatId t "awaiting_edittitle_value"
      (some (.target id)) w hadmin hload hus hcmd (by decide)
    have hd : dialogTrace env chatId "awaiting_edittitle_value"
        (some (.target id)) (trimStr t) w.media w.blocked =
        [.mediaUpdate "project_name" id (trimStr t) (hasMedia id w.media),
         .logA "MEDIA_EDIT", .broadcast,
         .reply chatId ("✅ Media " ++ id ++ " title updated."),
         .writeState chatId "idle" none] := rfl
    rw [hd] at hshape
    refine ⟨?_, ?_, ?_⟩
    · rw [hshape]; rfl
    · unfold broadcasts; rw [hshape]; rfl
    · unfold runText; rw [hshape]; rfl
  · intro field id v chatId m hid hv
    constructor
    · intro hfound
      unfold handleEdit
      rw [if_neg (by simp [hid, hv]), hfound]
      rfl
    · intro hfound
      refine ⟨?_, updateField_not_found field id v m hfound⟩
      unfold handleEdit
      rw [if_neg (by simp [hid, hv]), hfound]
      rfl

/-- Witness for C7 (amended): the edit-value step on a missing id still
reports success, while `handleEdit` on a missing id reports not-found. -/
theorem edit_field_update_behaviour_witness :
    repliesOf (textTrace envW "1" "NewTitle" wEditW) =
      ["✅ Media missing title updated."] ∧
    handleEdit "project_name" "x" "T" "1" [] =
      [.mediaUpdate "project_name" "x" "T" false,
       .reply "1" "❌ Media x not found."] := by
  refine ⟨(edit_field_update_behaviour.1 envW "1" "missing" "NewTitle" wEditW
    rfl rfl rfl (by decide)).1, ?_⟩
  exact ((edit_field_update_behaviour.2 "project_name" "x" "T" "1" []
    (by decide) (by decide)).2 (by decide)).1

/-- C8 counterexample: publishing with channel `"a"` failing its write
leaves `"a"` registered — the registration list after the publish still
contains the failing channel, contradicting the claim that a write
failure unregisters it (delivery to `"b"` is still attempted). -/
theorem publish_failure_counterexample :
    failW "a" = true ∧
    (broadcastUpdateSse failW ["a", "b"]).1 = ["a", "b"] ∧
    (broadcastUpdateSse failW ["a", "b"]).2 = [("a", false), ("b", true)] ∧
    ((broadcastUpdateSse failW ["a", "b"]).1.contains "a") = true := by
  refine ⟨by decide, by decide, by decide, by decide⟩

/-- C8 amended: `publish` attempts one write to every currently-registered
channel, in order, and always completes — a per-channel write failure
neither aborts the loop nor unregisters the channel (the registration
list is returned unchanged); a channel leaves the registration list only
through its connection-close handler, which does remove it. -/
theorem publish_fire_and_forget (failing : String → Bool) (clients : List String)
    (cid : String) :
    (broadcastUpdateSse failing clients).1 = clients ∧
    (broadcastUpdateSse failing clients).2.map Prod.fst = clients ∧
    (sseDisconnect clients cid).contains cid = false := by
  refine ⟨rfl, ?_, ?_⟩
  · show List.map Prod.fst (clients.map fun c => (c, !failing c)) = clients
    rw [List.map_map]
    exact List.map_id'' (fun _ => rfl) clients
  · induction clients with
    | nil => rfl
    | cons c rest ih =>
      by_cases h : c = cid
      · simp only [sseDisconnect, List.filter_cons] at ih ⊢
        simp only [h]
        simp only [ne_eq, not_true_eq_false, decide_False, Bool.false_eq_true, if_false]
        exact ih
      · have h' : ¬ cid = c := fun hh => h hh.symm
        simp only [sseDisconnect, List.filter_cons] at ih ⊢
        simp [h, h', ih]

/-- C9: with `site_status = paused`, every request whose path is not
under the webhook prefix gets the maintenance response no matter whether
the caller's IP is blocked (the block gate runs after the pause gate);
a webhook-path request bypasses the pause gate entirely and is answered
by the block gate alone. -/
theorem pause_gate_behaviour (pathStr ip : String)
    (config : List (String × String)) (blocked : List String)
    (hp : lookupKV config "site_status" = some "paused") :
    (strStartsWith pathStr "/api/webhook/" = false →
      siteGate pathStr ip config blocked = .maintenance) ∧
    (strStartsWith pathStr "/api/webhook/" = true →
      siteGate pathStr ip config blocked =
        (if blocked.contains ip then .forbidden else .pass)) := by
  constructor
  · intro hweb
    unfold siteGate pauseMw
    rw [if_neg (by simp [hweb]), if_pos hp]
  · intro hweb
    unfold siteGate pauseMw blockMw
    rw [if_pos hweb]
    dsimp only
    split <;> simp_all

/-- Witness for C9: with the site paused, a blocked IP requesting `/x`
still gets the maintenance page, while the webhook path is answered by
the block gate (forbidden here), not the pause gate. -/
theorem pause_gate_behaviour_witness :
    siteGate "/x" "9.9.9.9" cfgPausedW ["9.9.9.9"] = .maintenance ∧
    siteGate "/api/webhook/t" "9.9.9.9" cfgPausedW ["9.9.9.9"] =
      (if (["9.9.9.9"] : List String).contains "9.9.9.9" then .forbidden else .pass) := by
  refine ⟨(pause_gate_behaviour "/x" "9.9.9.9" cfgPausedW ["9.9.9.9"] rfl).1 (by decide),
    (pause_gate_behaviour "/api/webhook/t" "9.9.9.9" cfgPausedW ["9.9.9.9"] rfl).2
      (by decide)⟩

/-- C10: loading conversation state for an actor with no persisted row,
or while the load query itself errors, yields idle with null context,
and in the error case the whole event is processed exactly as if the
actor's persisted state were idle (same effect trace, hence same replies
— no load failure is ever surfaced); likewise for the missing-row case. -/
theorem state_load_defaults_idle :
    (∀ (env : Env) (udb : List (String × String × Option Ctx)) (chatId : String),
      lookupUS udb chatId = none → getUserState env udb chatId = ("idle", none)) ∧
    (∀ (env : Env) (udb : List (String × String × Option Ctx)) (chatId : String),
      env.stateLoadErr = true → getUserState env udb chatId = ("idle", none)) ∧
    (∀ (env : Env) (chatId t : String) (w : World),
      env.stateLoadErr = true →
      textTrace env chatId t w =
        textTrace { env with stateLoadErr := false } chatId t
          { w with userDb := setUS w.userDb chatId "idle" none }) ∧
    (∀ (env : Env) (chatId t : String) (w : World),
      env.stateLoadErr = false → lookupUS w.userDb chatId = none →
      textTrace env chatId t w =
        textTrace env chatId t
          { w with userDb := setUS w.userDb chatId "idle" none }) := by
  refine ⟨?_, ?_, ?_, ?_⟩
  · intro env udb chatId h
    unfold getUserState
    split
    · rfl
    · rw [h]
  · intro env udb chatId h
    unfold getUserState
    rw [if_pos h]
  · intro env chatId t w herr
    by_cases h : chatId = env.admin
    · unfold textTrace getUserState
      rw [if_pos h, if_pos (show chatId = env.admin from h)]
      simp [herr, lookupUS_setUS_self]
    · unfold textTrace
      rw [if_neg h, if_neg (show ¬ chatId = env.admin from h)]
  · intro env chatId t w hload hnone
    by_cases h : chatId = env.admin
    · unfold textTrace getUserState
      rw [if_pos h, if_pos h]
      simp [hload, hnone, lookupUS_setUS_self]
    · unfold textTrace
      rw [if_neg h, if_neg h]

/-- Witness for C10: with the load query failing, a stored
`awaiting_name` state is ignored and the plain text is handled exactly
as from idle. -/
theorem state_load_defaults_idle_witness :
    getUserState envWErr [("1", "awaiting_name", none)] "1" = ("idle", none) ∧
    textTrace envWErr "1" "hello" wStateW =
      textTrace { envWErr with stateLoadErr := false } "1" "hello"
        { wStateW with userDb := setUS wStateW.userDb "1" "idle" none } := by
  refine ⟨state_load_defaults_idle.2.1 envWErr [("1", "awaiting_name", none)] "1" rfl,
    state_load_defaults_idle.2.2.1 envWErr "1" "hello" wStateW rfl⟩
